import Mathlib

/-!
Verification development for the OData metadata schema compiler
(odata/metadata.py).  The Python source is shallowly embedded: each
method of the MetaData class becomes a Lean function over explicit
data, Python dictionaries become association lists with insertion-order
preserving update (setKV), Python exceptions (KeyError / ValueError)
become an Except String monad, and the dynamic classes synthesized with
type(...) become EntityClass records whose attribute dictionary is an
association list of resolved property instances.
-/

set_option autoImplicit false

namespace OData

/-! ## Python string primitives used by the source -/

/-- Embedding of Python str.startswith for a plain string argument. -/
def pyStartswith (s pre : String) : Bool :=
  pre.toList.isPrefixOf s.toList

/-- Drop the longest leading run of characters that belong to the set
chars.  This is the semantics of Python str.lstrip(chars): the argument
is a set of characters, not a prefix. -/
def stripSetLeft (chars l : List Char) : List Char :=
  l.dropWhile (fun c => chars.contains c)

/-- Embedding of Python str.lstrip(chars). -/
def pyLstrip (s chars : String) : String :=
  ⟨stripSetLeft chars.toList s.toList⟩

/-- Embedding of Python str.rstrip(chars): drop the longest trailing run
of characters belonging to the set chars. -/
def pyRstrip (s chars : String) : String :=
  ⟨(stripSetLeft chars.toList s.toList.reverse).reverse⟩

/-- One step of Python str.replace: scan the character list, replacing
every non-overlapping occurrence of pat (non-empty) by repl, left to
right.  The Nat argument is fuel, always instantiated with the length of
the scanned list, which bounds the number of recursion steps. -/
def pyReplaceAux (pat repl : List Char) : Nat → List Char → List Char
  | 0, l => l
  | _ + 1, [] => []
  | fuel + 1, c :: rest =>
    if pat ≠ [] ∧ pat.isPrefixOf (c :: rest) then
      repl ++ pyReplaceAux pat repl fuel ((c :: rest).drop pat.length)
    else
      c :: pyReplaceAux pat repl fuel rest

/-- Embedding of Python str.replace(pat, repl) (all occurrences). -/
def pyReplace (s pat repl : String) : String :=
  ⟨pyReplaceAux pat.toList repl.toList s.toList.length s.toList⟩

/-- Value of a decimal digit character, if it is one. -/
def digitVal (c : Char) : Option Nat :=
  if '0' ≤ c ∧ c ≤ '9' then some (c.toNat - '0'.toNat) else none

/-- Accumulate a decimal number; fails on any non-digit character. -/
def digitsToNatAux : Nat → List Char → Option Nat
  | acc, [] => some acc
  | acc, c :: r =>
    match digitVal c with
    | some d => digitsToNatAux (acc * 10 + d) r
    | none => none

/-- Embedding of Python int(str): an optional sign followed by at least
one decimal digit.  (Surrounding whitespace and underscore separators,
which Python additionally tolerates, are not modelled; no theorem below
depends on them.) -/
def pyIntOfString (s : String) : Option Int :=
  match s.toList with
  | '-' :: rest =>
    if rest = [] then none else (digitsToNatAux 0 rest).map (fun n => -(n : Int))
  | '+' :: rest =>
    if rest = [] then none else (digitsToNatAux 0 rest).map (fun n => (n : Int))
  | l =>
    if l = [] then none else (digitsToNatAux 0 l).map (fun n => (n : Int))

/-! ## Python dict as an association list

Python dictionaries preserve insertion order; assigning to an existing
key replaces the value in place, assigning to a fresh key appends. -/

/-- Lookup in an insertion-ordered dictionary. -/
def lookupKV {α : Type} : List (String × α) → String → Option α
  | [], _ => none
  | kv :: rest, k => if kv.1 = k then some kv.2 else lookupKV rest k

/-- Key membership in a dictionary. -/
def containsKey {α : Type} (m : List (String × α)) (k : String) : Bool :=
  (lookupKV m k).isSome

/-- Dictionary assignment d[k] = v: replace in place if the key exists,
otherwise append at the end (Python dict semantics). -/
def setKV {α : Type} : List (String × α) → String → α → List (String × α)
  | [], k, v => [(k, v)]
  | kv :: rest, k, v =>
    if kv.1 = k then (k, v) :: rest else kv :: setKV rest k v

/-! ## MetaData._type_is_collection -/

/-- Embedding of MetaData._type_is_collection.  Note that the source
uses str.lstrip with the multi-character argument "Collection(", which
strips a character set rather than removing the prefix. -/
def type_is_collection (typename : String) : Bool × String :=
  if pyStartswith typename "Collection(" then
    (true, pyRstrip (pyLstrip typename "Collection(") ")")
  else
    (false, typename)

/-! ## MetaData.get_type_name -/

/-- Embedding of MetaData.get_type_name: the single hard-coded vendor
alias substitution. -/
def get_type_name (name : String) (_schema_name : String) : String :=
  pyReplace name "mscrm" "Microsoft.Dynamics.CRM"

/-! ## Property classes and the primitive type map

Modelled from the spec: the property module is not part of the analysed
source; its classes (StringProperty, IntegerProperty, ...) only act as
scalar-kind tags here, which is all the metadata compiler observes of
them. -/

inductive PropClass where
  | StringProperty
  | IntegerProperty
  | DecimalProperty
  | DatetimeProperty
  | BooleanProperty
  | UUIDProperty
  deriving DecidableEq, Repr

/-- Embedding of the MetaData.property_types class attribute. -/
def property_types : List (String × PropClass) :=
  [("Edm.Int16", .IntegerProperty),
   ("Edm.Int32", .IntegerProperty),
   ("Edm.Int64", .IntegerProperty),
   ("Edm.String", .StringProperty),
   ("Edm.Single", .DecimalProperty),
   ("Edm.Decimal", .DecimalProperty),
   ("Edm.DateTimeOffset", .DatetimeProperty),
   ("Edm.Boolean", .BooleanProperty),
   ("Edm.Guid", .UUIDProperty)]

/-- Embedding of MetaData.property_type_to_python: dict get with
StringProperty as the default, hence total. -/
def property_type_to_python (edm_type : String) : PropClass :=
  (lookupKV property_types edm_type).getD .StringProperty

/-! ## Raw extracted records (the dictionaries built by the parse pass) -/

structure PropertyDecl where
  name : String
  type : String
  is_primary_key : Bool
  is_collection : Bool
  deriving DecidableEq, Repr

structure NavPropertyDecl where
  name : String
  type : String
  foreign_key : Option String
  deriving DecidableEq, Repr

structure EntityDecl where
  name : String
  type : String
  base_type : Option String
  properties : List PropertyDecl
  navigation_properties : List NavPropertyDecl
  deriving DecidableEq, Repr

structure EnumMember where
  name : String
  value : Int
  deriving DecidableEq, Repr

structure EnumDecl where
  name : String
  fully_qualified_name : String
  members : List EnumMember
  deriving DecidableEq, Repr

structure SchemaRec where
  name : String
  entities : List EntityDecl
  enum_types : List EnumDecl
  deriving DecidableEq, Repr

structure EntitySetDecl where
  name : String
  type : String
  schema : Option EntityDecl
  deriving DecidableEq, Repr

structure OperationDecl where
  name : String
  fully_qualified_name : String
  is_bound : Bool
  is_bound_to : Option String
  parameters : List (String × String)
  return_type : Option String
  return_type_collection : Option String
  deriving DecidableEq, Repr

/-! ## Resolved graph nodes -/

/-- Embedding of the value EnumType(name, names=...) from the enum-type
pre-pass of get_entity_sets.  Modelled from the spec: the enumtype
module is not part of the analysed source; the compiler only stores the
bare name and the ordered (label, integer) member pairs. -/
structure EnumTypeVal where
  name : String
  names : List (String × Int)
  deriving DecidableEq, Repr

/-- A resolved property attribute set on a synthesized entity class:
either a scalar property instance (class, name, primary_key,
is_collection keyword arguments) or an EnumTypeProperty bound to a
resolved enum. -/
inductive PropertyInstance where
  | scalar (cls : PropClass) (name : String) (primary_key : Bool) (is_collection : Bool)
  | enumProp (name : String) (enum_class : EnumTypeVal)
  deriving DecidableEq, Repr

/-- Embedding of a class synthesized by type(entity_name, (parent,),
object_dict) in MetaData._create_entities.  The props field is the
dictionary of OData property attributes reachable on the class,
inherited entries first (Python attribute lookup through the single
base class), and is frozen once the create-entities pass ends.
Modelled from the spec where the entity module is missing: the common
declarative base class exposes no attribute named like a schema
property, so hasattr on the synthesized class is key membership in
props. -/
structure EntityClass where
  schema : EntityDecl
  odata_type : String
  odata_collection : String
  props : List (String × PropertyInstance)
  deriving DecidableEq, Repr

/-- An entry of the all_types table: entity class or resolved enum. -/
inductive TypeEntry where
  | entity (e : EntityClass)
  | enum (e : EnumTypeVal)
  deriving DecidableEq, Repr

/-- The state threaded through the type-graph build: the all_types
table (fully-qualified name → resolved type) and the entities dict. -/
structure CreateState where
  all_types : List (String × TypeEntry)
  entities : List (String × EntityClass)
  deriving DecidableEq, Repr

/-- The enum stored at a name of the table, if that entry is an enum. -/
def enumAt (all_types : List (String × TypeEntry)) (t : String) : Option EnumTypeVal :=
  match lookupKV all_types t with
  | some (.enum e) => some e
  | _ => none

/-- Attribute dictionary contributed by a parent table entry.  An
entity parent contributes its property attributes.  Modelled from the
spec for the enum case (enumtype module missing from the source): a
base-type name resolving to an enum contributes no properties. -/
def typeEntryProps : TypeEntry → List (String × PropertyInstance)
  | .entity p => p.props
  | .enum _ => []

/-! ## MetaData._create_entities -/

/-- The inherited attribute dictionary of the class about to be
synthesized: the parent entity class properties when the declaration
carries a truthy base-type name that is already resolved in all_types
(the branch guard "if base_type and parent_entity_class"), and the
empty root-class dictionary otherwise. -/
def inheritedProps (st : CreateState) (d : EntityDecl) : List (String × PropertyInstance) :=
  match d.base_type with
  | some bt =>
    if bt = "" then []
    else
      match lookupKV st.all_types bt with
      | some pc => typeEntryProps pc
      | none => []
  | none => []

/-- The enum lookup seen by the property loop of _create_entities: by
the time properties are attached, all_types already maps the entity
type name being built to the (entity) class itself, so that name never
resolves to an enum; every other name is looked up in the incoming
table. -/
def stepEnumLookup (st : CreateState) (d : EntityDecl) (t : String) : Option EnumTypeVal :=
  if t = d.type then none else enumAt st.all_types t

/-- One iteration of the property loop of _create_entities: skip the
declaration when the class already has an attribute of that name
(inherited, first-writer-wins), otherwise attach an EnumTypeProperty
when the declared type name resolves to an enum, and a scalar property
instance (defaulting to StringProperty) otherwise. -/
def attachProp (elu : String → Option EnumTypeVal)
    (props : List (String × PropertyInstance)) (p : PropertyDecl) :
    List (String × PropertyInstance) :=
  if containsKey props p.name then props
  else
    match elu p.type with
    | some en => setKV props p.name (.enumProp p.name en)
    | none =>
      setKV props p.name
        (.scalar (property_type_to_python p.type) p.name p.is_primary_key p.is_collection)

/-- The externally visible collection name resolved for a declaration:
the entity-set name registered under the fully-qualified type name, or
the bare entity name when no set is declared or its name is falsy. -/
def collectionNameFor (entity_sets : List (String × EntitySetDecl)) (d : EntityDecl) : String :=
  let cn0 :=
    match lookupKV entity_sets d.type with
    | some sd => sd.name
    | none => ""
  if cn0 = "" then d.name else cn0

/-- The class synthesized for one entity-type declaration by
_create_entities: attribute dictionary seeded from the resolved parent
(or empty for a root type) with the declared properties attached on
top. -/
def createdClass (entity_sets : List (String × EntitySetDecl))
    (st : CreateState) (d : EntityDecl) : EntityClass :=
  { schema := d,
    odata_type := d.type,
    odata_collection := collectionNameFor entity_sets d,
    props := d.properties.foldl (attachProp (stepEnumLookup st d)) (inheritedProps st d) }

/-- One iteration of the entity loop of _create_entities: synthesize
the class, record it in the entities dict under the bare entity name
when the collection name is truthy, and register it in all_types under
the fully-qualified type name. -/
def createEntityStep (entity_sets : List (String × EntitySetDecl))
    (st : CreateState) (d : EntityDecl) : CreateState :=
  let cls := createdClass entity_sets st d
  { all_types := setKV st.all_types d.type (.entity cls),
    entities :=
      if cls.odata_collection = "" then st.entities
      else setKV st.entities d.name cls }

/-- Embedding of MetaData._create_entities: fold over the schemas and
their entity declarations in extraction order. -/
def create_entities (entity_sets : List (String × EntitySetDecl))
    (schemas : List SchemaRec) (st : CreateState) : CreateState :=
  schemas.foldl (fun st' sch => sch.entities.foldl (createEntityStep entity_sets) st') st

/-- The resolved enum value EnumType(name, names=[(member name, member
value), ...]) built by the enum pre-pass for one declaration. -/
def resolvedEnum (e : EnumDecl) : EnumTypeVal :=
  { name := e.name, names := e.members.map (fun m => (m.name, m.value)) }

/-- Embedding of the enum pre-pass of get_entity_sets: every enum type
of every schema is resolved and registered in all_types before any
entity type is processed. -/
def registerEnums (schemas : List SchemaRec)
    (all_types : List (String × TypeEntry)) : List (String × TypeEntry) :=
  schemas.foldl
    (fun at' sch =>
      sch.enum_types.foldl
        (fun at'' e => setKV at'' e.fully_qualified_name (.enum (resolvedEnum e)))
        at')
    all_types

/-! ## MetaData._set_object_relationships -/

/-- Embedding of a NavigationProperty instance attached by
_set_object_relationships.  The target entity class is referred to by
its stable fully-qualified type name. -/
structure NavInstance where
  name : String
  target_type : String
  collection : Bool
  foreign_key : Option String
  deriving DecidableEq, Repr

/-- Navigation attributes attached to one entity class by
_set_object_relationships: for each declared navigation property, strip
the collection wrapper, scan all entity classes in dict order and
attach an edge per match (the last match is the one left in place); a
declaration whose stripped target matches nothing attaches nothing. -/
def navAttachStep (entities : List (String × EntityClass))
    (acc : List (String × NavInstance)) (nd : NavPropertyDecl) :
    List (String × NavInstance) :=
  let pr := type_is_collection nd.type
  match (entities.filter (fun kv => kv.2.schema.type = pr.2)).getLast? with
  | some kv =>
    setKV acc nd.name
      { name := nd.name, target_type := kv.2.odata_type,
        collection := pr.1, foreign_key := nd.foreign_key }
  | none => acc

def navPropsAttached (entities : List (String × EntityClass)) (e : EntityClass) :
    List (String × NavInstance) :=
  e.schema.navigation_properties.foldl (navAttachStep entities) []

/-- Embedding of MetaData._set_object_relationships: the navigation
attributes attached to every entity of the entities dict. -/
def set_object_relationships (entities : List (String × EntityClass)) :
    List (String × List (String × NavInstance)) :=
  entities.map (fun kv => (kv.1, navPropsAttached entities kv.2))

/-! ## Operation binder: _create_actions and _create_functions -/

/-- Result of the shared name resolution closure
get_entity_or_prop_from_type of get_entity_sets. -/
inductive ReturnResolved where
  | nothing
  | tableEntry (t : TypeEntry)
  | scalar (p : PropClass)
  deriving DecidableEq, Repr

/-- Embedding of the closure get_entity_or_prop_from_type: None stays
None; a name found in all_types resolves to its table entry; any other
name falls back to the scalar-kind map (string kind by default). -/
def get_entity_or_prop_from_type (all_types : List (String × TypeEntry)) :
    Option String → ReturnResolved
  | none => .nothing
  | some t =>
    match lookupKV all_types t with
    | some ty => .tableEntry ty
    | none => .scalar (property_type_to_python t)

/-- Embedding of the class synthesized for one action or function:
the object_dict passed to type(name, (service base,), object_dict). -/
structure OperationClass where
  name : String
  parameters : List (String × PropClass)
  return_type : ReturnResolved
  return_type_collection : ReturnResolved
  bound_to_collection : Bool
  deriving DecidableEq, Repr

/-- The operation class built by _create_actions / _create_functions
for one declaration (both methods build it identically). -/
def mkOperationClass (all_types : List (String × TypeEntry))
    (a : OperationDecl) (bound_to_collection : Bool) : OperationClass :=
  { name := a.fully_qualified_name,
    parameters :=
      a.parameters.foldl (fun m pr => setKV m pr.1 (property_type_to_python pr.2)) [],
    return_type := get_entity_or_prop_from_type all_types a.return_type,
    return_type_collection := get_entity_or_prop_from_type all_types a.return_type_collection,
    bound_to_collection := bound_to_collection }

/-- Binding state of the operation pass: operations attached to an
entity class (identified by its fully-qualified type name) and the
global service dictionary of unbound registrations. -/
structure BindState where
  boundOps : List (String × String × OperationClass)
  serviceOps : List (String × OperationClass)
  deriving DecidableEq, Repr

/-- The binding resolution of one operation: the bound_to_collection
flag from the collection strip of the binding type name, and the
binding entity (the last entity of the dict whose fully-qualified type
name equals the stripped name, if any); a missing or falsy binding name
resolves to no entity. -/
def opBindTarget (entities : List (String × EntityClass)) (a : OperationDecl) :
    Bool × Option EntityClass :=
  match a.is_bound_to with
  | some et0 =>
    if et0 = "" then (false, none)
    else
      let pr := type_is_collection et0
      (pr.1, ((entities.filter (fun kv => kv.2.schema.type = pr.2)).getLast?).map (fun kv => kv.2))
  | none => (false, none)

/-- One iteration of _create_actions (and, identically, of
_create_functions): resolve the binding entity by scanning the entities
dict for the collection-stripped binding type name (the last match
wins, a falsy binding name resolves nothing); attach the operation to
the entity when found, otherwise register it in the global service
dictionary under the short declared name. -/
def createOpStep (all_types : List (String × TypeEntry))
    (entities : List (String × EntityClass)) (st : BindState)
    (a : OperationDecl) : BindState :=
  let bt := opBindTarget entities a
  let cls := mkOperationClass all_types a bt.1
  match bt.2 with
  | some tgt => { st with boundOps := st.boundOps ++ [(tgt.odata_type, a.name, cls)] }
  | none => { st with serviceOps := setKV st.serviceOps a.name cls }

/-- Embedding of MetaData._create_actions over the action list. -/
def create_actions (all_types : List (String × TypeEntry))
    (entities : List (String × EntityClass)) (acts : List OperationDecl)
    (st : BindState) : BindState :=
  acts.foldl (createOpStep all_types entities) st

/-- Embedding of MetaData._create_functions over the function list:
the method body is identical to _create_actions, targeting the
functions dictionary of the service instead of the actions one. -/
def create_functions (all_types : List (String × TypeEntry))
    (entities : List (String × EntityClass)) (fns : List OperationDecl)
    (st : BindState) : BindState :=
  fns.foldl (createOpStep all_types entities) st

/-! ## The XML layer

An XML element: tag, attribute dictionary, children.  Namespace
prefixes (edm:, edmx:) are considered resolved, so tags are the plain
local names.  Attribute access with a mandatory key embeds the Python
attrib[...] subscript, whose KeyError aborts the compile; the Except
monad carries that abort. -/

inductive Elem where
  | mk (tag : String) (attrs : List (String × String)) (children : List Elem)

def Elem.tag : Elem → String
  | .mk t _ _ => t

def Elem.attrs : Elem → List (String × String)
  | .mk _ a _ => a

def Elem.children : Elem → List Elem
  | .mk _ _ c => c

/-- element.attrib[key]: raises KeyError when absent. -/
def getAttr (e : Elem) (k : String) : Except String String :=
  match lookupKV e.attrs k with
  | some v => .ok v
  | none => .error ("KeyError: " ++ k)

/-- element.attrib.get(key): None when absent. -/
def getAttrOpt (e : Elem) (k : String) : Option String :=
  lookupKV e.attrs k

/-- The query xmlq(node, tag) for a single-level path: the children
carrying the given local tag name, in document order. -/
def childTagged (e : Elem) (t : String) : List Elem :=
  e.children.filter (fun c => c.tag = t)

/-- The query xmlq(node, t1/t2) for a two-level path. -/
def pathTagged (e : Elem) (t1 t2 : String) : List Elem :=
  (childTagged e t1).map (fun c => childTagged c t2) |>.flatten

/-- True when the computation aborted with an exception. -/
def exceptIsError {α : Type} : Except String α → Bool
  | .error _ => true
  | .ok _ => false

/-! ## MetaData._parse_action and MetaData._parse_function -/

/-- The parameter loop shared by _parse_action and _parse_function:
the accumulator carries (is_bound_to, parameters).  For a bound
operation a parameter named bindingParameter is consumed into
is_bound_to (its Type attribute) and excluded from the parameter list;
every other parameter is appended as a (name, type) pair.  Missing
Name or Type attributes raise KeyError. -/
def parse_params (is_bound : Bool) :
    List Elem → Option String × List (String × String) →
    Except String (Option String × List (String × String))
  | [], acc => .ok acc
  | pe :: rest, acc =>
    match getAttr pe "Name" with
    | .error msg => .error msg
    | .ok pname =>
      if is_bound && (pname == "bindingParameter") then
        match getAttr pe "Type" with
        | .error msg => .error msg
        | .ok t => parse_params is_bound rest (some t, acc.2)
      else
        match getAttr pe "Type" with
        | .error msg => .error msg
        | .ok t => parse_params is_bound rest (acc.1, acc.2 ++ [(pname, t)])

/-- The ReturnType loop shared by _parse_action and _parse_function:
the accumulator carries (return_type, return_type_collection); a
collection-wrapped type name lands in the collection slot, any other in
the plain slot. -/
def parse_returns :
    List Elem → Option String × Option String →
    Except String (Option String × Option String)
  | [], acc => .ok acc
  | re :: rest, acc =>
    match getAttr re "Type" with
    | .error msg => .error msg
    | .ok tn =>
      let pr := type_is_collection tn
      if pr.1 then parse_returns rest (acc.1, some pr.2)
      else parse_returns rest (some pr.2, acc.2)

/-- Embedding of MetaData._parse_action. -/
def parse_action (e : Elem) (schema_name : String) : Except String OperationDecl :=
  match getAttr e "Name" with
  | .error msg => .error msg
  | .ok name =>
    let is_bound := getAttrOpt e "IsBound" == some "true"
    let fqn := if is_bound then schema_name ++ "." ++ name else name
    match parse_params is_bound (childTagged e "Parameter") (none, []) with
    | .error msg => .error msg
    | .ok pr =>
      match parse_returns (childTagged e "ReturnType") (none, none) with
      | .error msg => .error msg
      | .ok rr =>
        .ok { name := name, fully_qualified_name := fqn, is_bound := is_bound,
              is_bound_to := pr.1, parameters := pr.2,
              return_type := rr.1, return_type_collection := rr.2 }

/-- Embedding of MetaData._parse_function, whose body is the same as
_parse_action. -/
def parse_function (e : Elem) (schema_name : String) : Except String OperationDecl :=
  match getAttr e "Name" with
  | .error msg => .error msg
  | .ok name =>
    let is_bound := getAttrOpt e "IsBound" == some "true"
    let fqn := if is_bound then schema_name ++ "." ++ name else name
    match parse_params is_bound (childTagged e "Parameter") (none, []) with
    | .error msg => .error msg
    | .ok pr =>
      match parse_returns (childTagged e "ReturnType") (none, none) with
      | .error msg => .error msg
      | .ok rr =>
        .ok { name := name, fully_qualified_name := fqn, is_bound := is_bound,
              is_bound_to := pr.1, parameters := pr.2,
              return_type := rr.1, return_type_collection := rr.2 }

/-- The Type attribute of the last parameter element named
bindingParameter, used to characterize the binding target kept by the
parameter loop. -/
def lastBindingParamType (pes : List Elem) : Option String :=
  pes.foldl
    (fun acc pe =>
      if getAttrOpt pe "Name" == some "bindingParameter" then getAttrOpt pe "Type" else acc)
    none

/-- The (name, type) attribute pairs of a parameter element list; on a
successful parse every element has both attributes, so the defaults are
never observed in the theorems below. -/
def paramPairs (pes : List Elem) : List (String × String) :=
  pes.map (fun pe => ((getAttrOpt pe "Name").getD "", (getAttrOpt pe "Type").getD ""))

/-! ## MetaData._parse_entity and MetaData._parse_enumtype -/

/-- The Key/PropertyRef loop: collect primary-key names (stored as a
dict with value 0, as in the source). -/
def parse_pks : List Elem → List (String × Nat) → Except String (List (String × Nat))
  | [], acc => .ok acc
  | pk :: rest, acc => do
    let n ← getAttr pk "Name"
    parse_pks rest (setKV acc n 0)

/-- The Property loop of _parse_entity: alias-normalize the declared
type, strip the collection wrapper, and record primary-key membership. -/
def parse_props (schema_name : String) (pks : List (String × Nat)) :
    List Elem → List PropertyDecl → Except String (List PropertyDecl)
  | [], acc => .ok acc
  | pe :: rest, acc => do
    let pn ← getAttr pe "Name"
    let pt0 ← getAttr pe "Type"
    let pt := get_type_name pt0 schema_name
    let pr := type_is_collection pt
    parse_props schema_name pks rest
      (acc ++ [{ name := pn, type := pr.2,
                 is_primary_key := containsKey pks pn, is_collection := pr.1 }])

/-- The NavigationProperty loop of _parse_entity: the declared target
type is alias-normalized but kept collection-wrapped (stripping happens
in the relationship pass); the optional foreign key comes from the
first ReferentialConstraint child. -/
def parse_navs (schema_name : String) :
    List Elem → List NavPropertyDecl → Except String (List NavPropertyDecl)
  | [], acc => .ok acc
  | nve :: rest, acc => do
    let pn ← getAttr nve "Name"
    let pt0 ← getAttr nve "Type"
    let pt := get_type_name pt0 schema_name
    let fk ←
      match childTagged nve "ReferentialConstraint" with
      | [] => pure (none : Option String)
      | rc :: _ => do
        let p ← getAttr rc "Property"
        pure (some p)
    parse_navs schema_name rest (acc ++ [{ name := pn, type := pt, foreign_key := fk }])

/-- Embedding of MetaData._parse_entity. -/
def parse_entity (e : Elem) (schema_name : String) : Except String EntityDecl := do
  let entity_name ← getAttr e "Name"
  let entity_type_name := schema_name ++ "." ++ entity_name
  let base_type :=
    match getAttrOpt e "BaseType" with
    | some bt => if bt = "" then none else some (get_type_name bt schema_name)
    | none => none
  let pks ← parse_pks (pathTagged e "Key" "PropertyRef") []
  let props ← parse_props schema_name pks (childTagged e "Property") []
  let navs ← parse_navs schema_name (childTagged e "NavigationProperty") []
  pure { name := entity_name, type := entity_type_name, base_type := base_type,
         properties := props, navigation_properties := navs }

/-- The Member loop of _parse_enumtype: int(value) raises ValueError on
a non-integer literal. -/
def parse_members : List Elem → List EnumMember → Except String (List EnumMember)
  | [], acc => .ok acc
  | me :: rest, acc => do
    let mn ← getAttr me "Name"
    let mvs ← getAttr me "Value"
    match pyIntOfString mvs with
    | some v => parse_members rest (acc ++ [{ name := mn, value := v }])
    | none => .error ("ValueError: invalid literal for int: " ++ mvs)

/-- Embedding of MetaData._parse_enumtype. -/
def parse_enumtype (e : Elem) (schema_name : String) : Except String EnumDecl := do
  let enum_name ← getAttr e "Name"
  let members ← parse_members (childTagged e "Member") []
  pure { name := enum_name, fully_qualified_name := schema_name ++ "." ++ enum_name,
         members := members }

/-! ## MetaData.parse_document -/

def parse_enums_loop (schema_name : String) :
    List Elem → List EnumDecl → Except String (List EnumDecl)
  | [], acc => .ok acc
  | ee :: rest, acc => do
    let en ← parse_enumtype ee schema_name
    parse_enums_loop schema_name rest (acc ++ [en])

def parse_entities_loop (schema_name : String) :
    List Elem → List EntityDecl → Except String (List EntityDecl)
  | [], acc => .ok acc
  | ee :: rest, acc => do
    let en ← parse_entity ee schema_name
    parse_entities_loop schema_name rest (acc ++ [en])

/-- First top-level pass of parse_document: extract every schema with
its enum types and entity types.  A Schema element without a Namespace
attribute raises KeyError. -/
def parse_schemas_first : List Elem → List SchemaRec → Except String (List SchemaRec)
  | [], acc => .ok acc
  | se :: rest, acc => do
    let schema_name ← getAttr se "Namespace"
    let enums ← parse_enums_loop schema_name (childTagged se "EnumType") []
    let ents ← parse_entities_loop schema_name (childTagged se "EntityType") []
    parse_schemas_first rest
      (acc ++ [{ name := schema_name, entities := ents, enum_types := enums }])

/-- The EntitySet loop of the second pass: container sets are keyed by
the (alias-normalized) entity type name; the schema back-pointer is the
last entity declaration of any schema with that type name. -/
def parse_entity_sets (schemas : List SchemaRec) (schema_name : String) :
    List Elem → List (String × EntitySetDecl) →
    Except String (List (String × EntitySetDecl))
  | [], acc => .ok acc
  | ese :: rest, acc => do
    let set_name ← getAttr ese "Name"
    let set_type0 ← getAttr ese "EntityType"
    let set_type := get_type_name set_type0 schema_name
    let sch := (((schemas.map (fun s => s.entities)).flatten).filter
      (fun en => en.type = set_type)).getLast?
    parse_entity_sets schemas schema_name rest
      (setKV acc set_type { name := set_name, type := set_type, schema := sch })

def parse_actions_loop (schema_name : String) :
    List Elem → List OperationDecl → Except String (List OperationDecl)
  | [], acc => .ok acc
  | ae :: rest, acc => do
    let a ← parse_action ae schema_name
    parse_actions_loop schema_name rest (acc ++ [a])

def parse_functions_loop (schema_name : String) :
    List Elem → List OperationDecl → Except String (List OperationDecl)
  | [], acc => .ok acc
  | fe :: rest, acc => do
    let f ← parse_function fe schema_name
    parse_functions_loop schema_name rest (acc ++ [f])

/-- Second top-level pass of parse_document: entity sets, actions and
functions of every schema. -/
def parse_schemas_second (schemas : List SchemaRec) :
    List Elem →
    List (String × EntitySetDecl) × List OperationDecl × List OperationDecl →
    Except String (List (String × EntitySetDecl) × List OperationDecl × List OperationDecl)
  | [], acc => .ok acc
  | se :: rest, acc => do
    let schema_name ← getAttr se "Namespace"
    let csets ← parse_entity_sets schemas schema_name
      (pathTagged se "EntityContainer" "EntitySet") acc.1
    let acts ← parse_actions_loop schema_name (childTagged se "Action") acc.2.1
    let fns ← parse_functions_loop schema_name (childTagged se "Function") acc.2.2
    parse_schemas_second schemas rest (csets, acts, fns)

/-- Embedding of MetaData.parse_document: two passes over the Schema
elements under DataServices. -/
def parse_document (doc : Elem) :
    Except String
      (List SchemaRec × List (String × EntitySetDecl) ×
        List OperationDecl × List OperationDecl) := do
  let schemas ← parse_schemas_first (pathTagged doc "DataServices" "Schema") []
  let second ← parse_schemas_second schemas (pathTagged doc "DataServices" "Schema") ([], [], [])
  pure (schemas, second.1, second.2.1, second.2.2)

/-! ## MetaData.get_entity_sets: the whole compile -/

structure CompileResult where
  all_types : List (String × TypeEntry)
  entities : List (String × EntityClass)
  nav_attached : List (String × List (String × NavInstance))
  actions_state : BindState
  functions_state : BindState
  deriving DecidableEq, Repr

/-- Embedding of MetaData.get_entity_sets from the parsed document on:
parse, resolve every enum type of every schema, build the entity
classes, attach navigation edges, bind actions and functions.  Any
exception of the parse layer aborts the whole compile. -/
def get_entity_sets_model (doc : Elem) : Except String CompileResult := do
  let parsed ← parse_document doc
  let schemas := parsed.1
  let entity_sets := parsed.2.1
  let acts := parsed.2.2.1
  let fns := parsed.2.2.2
  let st0 : CreateState := { all_types := registerEnums schemas [], entities := [] }
  let st := create_entities entity_sets schemas st0
  let nav := set_object_relationships st.entities
  let astate := create_actions st.all_types st.entities acts { boundOps := [], serviceOps := [] }
  let fstate := create_functions st.all_types st.entities fns { boundOps := [], serviceOps := [] }
  pure { all_types := st.all_types, entities := st.entities, nav_attached := nav,
         actions_state := astate, functions_state := fstate }

/-! ## Concrete metadata documents used as counterexample and witness
inputs -/

/-- A document with an entity type NS.Order whose declared entity set
is named Orders: the set name differs from the bare type name. -/
def c2Doc : Elem := .mk "Edmx" [] [
  .mk "DataServices" [] [
    .mk "Schema" [("Namespace", "NS")] [
      .mk "EntityType" [("Name", "Order")] [],
      .mk "EntityContainer" [] [
        .mk "EntitySet" [("Name", "Orders"), ("EntityType", "NS.Order")] []]]]]

/-- A document where entity A declares two navigation properties both
named Friend: one targets the compiled type NS.B, the other the
non-existent NS.Missing. -/
def c6Doc : Elem := .mk "Edmx" [] [
  .mk "DataServices" [] [
    .mk "Schema" [("Namespace", "NS")] [
      .mk "EntityType" [("Name", "B")] [],
      .mk "EntityType" [("Name", "A")] [
        .mk "NavigationProperty" [("Name", "Friend"), ("Type", "NS.B")] [],
        .mk "NavigationProperty" [("Name", "Friend"), ("Type", "NS.Missing")] []]]]]

/-- A document where the derived type NS.D redeclares the inherited
property StatusCode with the enum type NS.Status, while the base NS.B
declares it as Edm.String. -/
def c7Doc : Elem := .mk "Edmx" [] [
  .mk "DataServices" [] [
    .mk "Schema" [("Namespace", "NS")] [
      .mk "EnumType" [("Name", "Status")] [
        .mk "Member" [("Name", "Active"), ("Value", "0")] [],
        .mk "Member" [("Name", "Closed"), ("Value", "1")] []],
      .mk "EntityType" [("Name", "B")] [
        .mk "Property" [("Name", "StatusCode"), ("Type", "Edm.String")] []],
      .mk "EntityType" [("Name", "D"), ("BaseType", "NS.B")] [
        .mk "Property" [("Name", "StatusCode"), ("Type", "NS.Status")] []]]]]

/-- Well-formed XML whose Schema element lacks the Namespace attribute. -/
def c10DocNoNamespace : Elem := .mk "Edmx" [] [
  .mk "DataServices" [] [.mk "Schema" [] []]]

/-- Well-formed XML whose EntityType element lacks the Name attribute. -/
def c10DocEntityNoName : Elem := .mk "Edmx" [] [
  .mk "DataServices" [] [.mk "Schema" [("Namespace", "NS")] [
    .mk "EntityType" [] []]]]

/-- Well-formed XML whose Property element lacks the Type attribute. -/
def c10DocPropertyNoType : Elem := .mk "Edmx" [] [
  .mk "DataServices" [] [.mk "Schema" [("Namespace", "NS")] [
    .mk "EntityType" [("Name", "A")] [.mk "Property" [("Name", "P")] []]]]]

/-- Well-formed XML whose NavigationProperty element lacks the Name
attribute. -/
def c10DocNavNoName : Elem := .mk "Edmx" [] [
  .mk "DataServices" [] [.mk "Schema" [("Namespace", "NS")] [
    .mk "EntityType" [("Name", "A")] [
      .mk "NavigationProperty" [("Type", "NS.B")] []]]]]

/-- Well-formed XML whose action Parameter element lacks the Type
attribute. -/
def c10DocParameterNoType : Elem := .mk "Edmx" [] [
  .mk "DataServices" [] [.mk "Schema" [("Namespace", "NS")] [
    .mk "Action" [("Name", "Act")] [.mk "Parameter" [("Name", "p")] []]]]]

/-- Well-formed XML whose enum Member element lacks the Name attribute. -/
def c10DocMemberNoName : Elem := .mk "Edmx" [] [
  .mk "DataServices" [] [.mk "Schema" [("Namespace", "NS")] [
    .mk "EnumType" [("Name", "S")] [.mk "Member" [("Value", "0")] []]]]]

/-- Well-formed XML whose enum Member Value attribute is not an integer
literal. -/
def c10DocMemberBadValue : Elem := .mk "Edmx" [] [
  .mk "DataServices" [] [.mk "Schema" [("Namespace", "NS")] [
    .mk "EnumType" [("Name", "S")] [
      .mk "Member" [("Name", "Active"), ("Value", "zero")] []]]]]

/-! ## Small concrete fixtures used by witness theorems -/

/-- Witness fixture: a resolved base entity class NS.B with one
attached property. -/
def c3BaseClass : EntityClass :=
  { schema := { name := "B", type := "NS.B", base_type := none,
                properties := [{ name := "Id", type := "Edm.Int32",
                                 is_primary_key := true, is_collection := false }],
                navigation_properties := [] },
    odata_type := "NS.B", odata_collection := "B",
    props := [("Id", .scalar .IntegerProperty "Id" true false)] }

/-- Witness fixture: a compile state holding the resolved base NS.B. -/
def c3State : CreateState :=
  { all_types := [("NS.B", .entity c3BaseClass)], entities := [("B", c3BaseClass)] }

/-- Witness fixture: a subtype declaration NS.D extending NS.B. -/
def c3Derived : EntityDecl :=
  { name := "D", type := "NS.D", base_type := some "NS.B",
    properties := [{ name := "Breed", type := "Edm.String",
                     is_primary_key := false, is_collection := false }],
    navigation_properties := [] }

/-- Witness fixture: a declaration whose base-type name NS.Missing is
not in the type table. -/
def c4Decl : EntityDecl :=
  { name := "D", type := "NS.D", base_type := some "NS.Missing",
    properties := [{ name := "Id", type := "Edm.Int32",
                     is_primary_key := true, is_collection := false }],
    navigation_properties := [] }

/-- Witness fixture: an entity-set dictionary binding NS.Order to the
set name Orders. -/
def c2SetDict : List (String × EntitySetDecl) :=
  [("NS.Order", { name := "Orders", type := "NS.Order", schema := none })]

/-- Witness fixture: the declaration of the entity type NS.Order. -/
def c2OrderDecl : EntityDecl :=
  { name := "Order", type := "NS.Order", base_type := none, properties := [],
    navigation_properties := [] }

/-- Witness fixture: a bound action whose binding parameter type
NS.Missing resolves to no entity. -/
def c5Action : OperationDecl :=
  { name := "Act", fully_qualified_name := "NS.Act", is_bound := true,
    is_bound_to := some "NS.Missing", parameters := [("p", "Edm.Int32")],
    return_type := none, return_type_collection := none }

/-- Witness fixture: an entity class with one navigation declaration
whose target NS.Missing resolves to no entity. -/
def c6Entity : EntityClass :=
  { schema := { name := "A", type := "NS.A", base_type := none, properties := [],
                navigation_properties :=
                  [{ name := "Friend", type := "NS.Missing", foreign_key := none }] },
    odata_type := "NS.A", odata_collection := "A", props := [] }

/-- Witness fixture: the resolved enum NS.Status. -/
def c7Status : EnumTypeVal :=
  { name := "Status", names := [("Active", 0), ("Closed", 1)] }

/-- Witness fixture: a compile state whose type table holds the enum
NS.Status. -/
def c7State : CreateState :=
  { all_types := [("NS.Status", .enum c7Status)], entities := [] }

/-- Witness fixture: an entity declaration with one property typed by
the enum name NS.Status. -/
def c7OrderDecl : EntityDecl :=
  { name := "Order", type := "NS.Order", base_type := none,
    properties := [{ name := "StatusCode", type := "NS.Status",
                     is_primary_key := false, is_collection := false }],
    navigation_properties := [] }

/-- Witness fixture: the raw declaration of the enum NS.Status. -/
def c7StatusDecl : EnumDecl :=
  { name := "Status", fully_qualified_name := "NS.Status",
    members := [{ name := "Active", value := 0 }, { name := "Closed", value := 1 }] }

/-- Witness fixture: a bound Action element with a bindingParameter and
one ordinary parameter. -/
def c9Elem : Elem := .mk "Action" [("Name", "Act"), ("IsBound", "true")] [
  .mk "Parameter" [("Name", "bindingParameter"), ("Type", "NS.T")] [],
  .mk "Parameter" [("Name", "p"), ("Type", "Edm.Int32")] []]

/-- Witness fixture: the record _parse_action extracts from c9Elem. -/
def c9Parsed : OperationDecl :=
  { name := "Act", fully_qualified_name := "NS.Act", is_bound := true,
    is_bound_to := some "NS.T", parameters := [("p", "Edm.Int32")],
    return_type := none, return_type_collection := none }

/-! # Lemmas about the dictionary embedding -/

theorem lookupKV_setKV_self {α : Type} (m : List (String × α)) (k : String) (v : α) :
    lookupKV (setKV m k v) k = some v := by
  induction m with
  | nil => simp [setKV, lookupKV]
  | cons kv rest ih =>
    by_cases h : kv.1 = k
    · simp [setKV, h, lookupKV]
    · simp [setKV, h, lookupKV, ih]

theorem lookupKV_setKV_ne {α : Type} (m : List (String × α)) (k k2 : String) (v : α)
    (h : k ≠ k2) : lookupKV (setKV m k v) k2 = lookupKV m k2 := by
  induction m with
  | nil => simp [setKV, lookupKV, h]
  | cons kv rest ih =>
    by_cases hk : kv.1 = k
    · simp [setKV, hk, lookupKV, h]
    · simp [setKV, hk, lookupKV, ih]

theorem containsKey_setKV_ne {α : Type} (m : List (String × α)) (k k2 : String) (v : α)
    (h : k ≠ k2) : containsKey (setKV m k v) k2 = containsKey m k2 := by
  simp [containsKey, lookupKV_setKV_ne m k k2 v h]

theorem setKV_of_not_contains {α : Type} (m : List (String × α)) (k : String) (v : α)
    (h : containsKey m k = false) : setKV m k v = m ++ [(k, v)] := by
  induction m with
  | nil => simp [setKV]
  | cons kv rest ih =>
    simp only [containsKey, lookupKV] at h
    by_cases hk : kv.1 = k
    · simp [hk] at h
    · simp only [if_neg hk] at h
      simp [setKV, hk, ih h]

theorem lookupKV_append_left {α : Type} (m l : List (String × α)) (k : String) (v : α)
    (h : lookupKV m k = some v) : lookupKV (m ++ l) k = some v := by
  induction m with
  | nil => simp [lookupKV] at h
  | cons kv rest ih =>
    by_cases hk : kv.1 = k
    · simp only [lookupKV, if_pos hk] at h ⊢
      exact h
    · simp only [lookupKV, if_neg hk] at h ⊢
      exact ih h

theorem lookupKV_append_right {α : Type} (m l : List (String × α)) (k : String)
    (h : lookupKV m k = none) : lookupKV (m ++ l) k = lookupKV l k := by
  induction m with
  | nil => simp
  | cons kv rest ih =>
    by_cases hk : kv.1 = k
    · simp only [lookupKV, if_pos hk] at h
      exact absurd h (by simp)
    · simp only [lookupKV, if_neg hk] at h ⊢
      exact ih h

theorem containsKey_setKV_iff {α : Type} (m : List (String × α)) (k k2 : String) (v : α) :
    containsKey (setKV m k v) k2 = true ↔ (containsKey m k2 = true ∨ k2 = k) := by
  by_cases h : k = k2
  · subst h
    simp [containsKey, lookupKV_setKV_self]
  · rw [containsKey, lookupKV_setKV_ne m k k2 v h]
    constructor
    · intro hc
      exact Or.inl hc
    · intro hc
      rcases hc with hc | hc
      · exact hc
      · exact absurd hc.symm h

theorem containsKey_setKV_mono {α : Type} (m : List (String × α)) (k k2 : String) (v : α)
    (h : containsKey m k2 = true) : containsKey (setKV m k v) k2 = true :=
  (containsKey_setKV_iff m k k2 v).mpr (Or.inl h)

/-- A general helper: a nested fold over the parts of a list of
containers equals the fold over the flattened list. -/
theorem foldl_nested_eq_flatten {α β γ : Type} (f : β → α → β) (g : γ → List α)
    (l : List γ) (b : β) :
    l.foldl (fun b' c => (g c).foldl f b') b = ((l.map g).flatten).foldl f b := by
  induction l generalizing b with
  | nil => rfl
  | cons c rest ih => simp [List.foldl_append, ih]

/-! # Lemmas about the property-attachment loop -/

theorem attachProp_lookup_preserve (elu : String → Option EnumTypeVal)
    (props : List (String × PropertyInstance)) (p : PropertyDecl) (n : String)
    (v : PropertyInstance) (h : lookupKV props n = some v) :
    lookupKV (attachProp elu props p) n = some v := by
  unfold attachProp
  cases hc : containsKey props p.name with
  | true => simpa [hc] using h
  | false =>
    have _hne : n ≠ p.name := by
      intro he
      subst he
      rw [containsKey, h] at hc
      simp at hc
    simp only [hc, Bool.false_eq_true, if_false]
    cases helu : elu p.type with
    | some en =>
      show lookupKV (setKV props p.name (.enumProp p.name en)) n = some v
      rw [setKV_of_not_contains _ _ _ hc]
      exact lookupKV_append_left _ _ _ _ h
    | none =>
      show lookupKV (setKV props p.name
        (.scalar (property_type_to_python p.type) p.name p.is_primary_key p.is_collection)) n
        = some v
      rw [setKV_of_not_contains _ _ _ hc]
      exact lookupKV_append_left _ _ _ _ h

theorem attachProps_lookup_preserve (elu : String → Option EnumTypeVal)
    (l : List PropertyDecl) (props : List (String × PropertyInstance)) (n : String)
    (v : PropertyInstance) (h : lookupKV props n = some v) :
    lookupKV (l.foldl (attachProp elu) props) n = some v := by
  induction l generalizing props with
  | nil => simpa using h
  | cons p rest ih =>
    exact ih _ (attachProp_lookup_preserve elu props p n v h)

theorem attachProp_mem (elu : String → Option EnumTypeVal)
    (props : List (String × PropertyInstance)) (p : PropertyDecl)
    (kv : String × PropertyInstance) (h : kv ∈ props) :
    kv ∈ attachProp elu props p := by
  unfold attachProp
  cases hc : containsKey props p.name with
  | true => simpa [hc] using h
  | false =>
    simp only [hc, Bool.false_eq_true, if_false]
    cases helu : elu p.type with
    | some en =>
      show kv ∈ setKV props p.name (.enumProp p.name en)
      rw [setKV_of_not_contains _ _ _ hc]
      exact List.mem_append_left _ h
    | none =>
      show kv ∈ setKV props p.name
        (.scalar (property_type_to_python p.type) p.name p.is_primary_key p.is_collection)
      rw [setKV_of_not_contains _ _ _ hc]
      exact List.mem_append_left _ h

theorem attachProps_mem (elu : String → Option EnumTypeVal)
    (l : List PropertyDecl) (props : List (String × PropertyInstance))
    (kv : String × PropertyInstance) (h : kv ∈ props) :
    kv ∈ l.foldl (attachProp elu) props := by
  induction l generalizing props with
  | nil => simpa using h
  | cons p rest ih =>
    exact ih _ (attachProp_mem elu props p kv h)

theorem containsKey_attachProp_mono (elu : String → Option EnumTypeVal)
    (props : List (String × PropertyInstance)) (p : PropertyDecl) (n : String)
    (h : containsKey props n = true) :
    containsKey (attachProp elu props p) n = true := by
  rw [containsKey, Option.isSome_iff_exists] at h
  obtain ⟨v, hv⟩ := h
  rw [containsKey, attachProp_lookup_preserve elu props p n v hv]
  rfl

theorem containsKey_attachProps_mono (elu : String → Option EnumTypeVal)
    (l : List PropertyDecl) (props : List (String × PropertyInstance)) (n : String)
    (h : containsKey props n = true) :
    containsKey (l.foldl (attachProp elu) props) n = true := by
  induction l generalizing props with
  | nil => simpa using h
  | cons p rest ih =>
    exact ih _ (containsKey_attachProp_mono elu props p n h)

theorem containsKey_attachProp_self (elu : String → Option EnumTypeVal)
    (props : List (String × PropertyInstance)) (p : PropertyDecl) :
    containsKey (attachProp elu props p) p.name = true := by
  unfold attachProp
  cases hc : containsKey props p.name with
  | true => simp [hc]
  | false =>
    simp only [hc, Bool.false_eq_true, if_false]
    cases helu : elu p.type with
    | some en => simp [containsKey, lookupKV_setKV_self]
    | none => simp [containsKey, lookupKV_setKV_self]

theorem attachProps_contains (elu : String → Option EnumTypeVal)
    (l : List PropertyDecl) (props : List (String × PropertyInstance))
    (p : PropertyDecl) (h : p ∈ l) :
    containsKey (l.foldl (attachProp elu) props) p.name = true := by
  induction l generalizing props with
  | nil => simp at h
  | cons q rest ih =>
    rcases List.mem_cons.mp h with hq | hq
    · subst hq
      exact containsKey_attachProps_mono elu rest _ p.name
        (containsKey_attachProp_self elu props p)
    · exact ih _ hq

theorem containsKey_attachProp_false (elu : String → Option EnumTypeVal)
    (props : List (String × PropertyInstance)) (p : PropertyDecl) (n : String)
    (h : containsKey props n = false) (hne : p.name ≠ n) :
    containsKey (attachProp elu props p) n = false := by
  unfold attachProp
  cases hc : containsKey props p.name with
  | true => simpa [hc] using h
  | false =>
    simp only [hc, Bool.false_eq_true, if_false]
    cases helu : elu p.type with
    | some en => rw [containsKey_setKV_ne _ _ _ _ hne]; exact h
    | none => rw [containsKey_setKV_ne _ _ _ _ hne]; exact h

theorem containsKey_attachProps_false (elu : String → Option EnumTypeVal)
    (l : List PropertyDecl) (props : List (String × PropertyInstance)) (n : String)
    (h : containsKey props n = false) (hl : ∀ q ∈ l, q.name ≠ n) :
    containsKey (l.foldl (attachProp elu) props) n = false := by
  induction l generalizing props with
  | nil => simpa using h
  | cons q rest ih =>
    exact ih _ (containsKey_attachProp_false elu props q n h (hl q (List.mem_cons_self _ _)))
      (fun q2 hq2 => hl q2 (List.mem_cons_of_mem _ hq2))

theorem attachProp_lookup_new_enum (elu : String → Option EnumTypeVal)
    (props : List (String × PropertyInstance)) (p : PropertyDecl) (en : EnumTypeVal)
    (hc : containsKey props p.name = false) (he : elu p.type = some en) :
    lookupKV (attachProp elu props p) p.name = some (.enumProp p.name en) := by
  unfold attachProp
  simp only [hc, Bool.false_eq_true, if_false, he]
  exact lookupKV_setKV_self _ _ _

theorem attachProp_lookup_new_scalar (elu : String → Option EnumTypeVal)
    (props : List (String × PropertyInstance)) (p : PropertyDecl)
    (hc : containsKey props p.name = false) (he : elu p.type = none) :
    lookupKV (attachProp elu props p) p.name
      = some (.scalar (property_type_to_python p.type) p.name p.is_primary_key p.is_collection) := by
  unfold attachProp
  simp only [hc, Bool.false_eq_true, if_false, he]
  exact lookupKV_setKV_self _ _ _

/-- A type name outside the primitive map resolves to the string kind. -/
theorem property_type_to_python_default (t : String)
    (h : containsKey property_types t = false) :
    property_type_to_python t = .StringProperty := by
  rw [property_type_to_python]
  rw [containsKey] at h
  cases hl : lookupKV property_types t with
  | none => rfl
  | some v => rw [hl] at h; simp at h

/-! # The claims -/

/-- Claim C1 (evidence for the code bug): the collection detector does
not return the inner name unchanged.  The source computes the inner
name with str.lstrip("Collection("), which strips the character set
C, o, l, e, c, t, i, n, ( from the left rather than removing the
prefix, so the inner name Contact of Collection(Contact) comes out as
act.  The detector is also evaluated at an inner name that opens with a
character outside that set (returned intact, as the spec intends) and
at a non-wrapped name (returned intact with false). -/
theorem c1_collection_detector_at_failing_input :
    type_is_collection "Collection(Contact)" = (true, "act")
    ∧ type_is_collection "Collection(NS.Foo)" = (true, "NS.Foo")
    ∧ type_is_collection "NS.Foo" = (false, "NS.Foo") :=
  ⟨rfl, rfl, rfl⟩

/-- Claim C10: attribute-level irregularities below the XML-parsing
layer abort the whole compile with an exception rather than being
recovered by omission: a Schema element without Namespace, an
EntityType without Name, a Property without Type, a NavigationProperty
without Name, an operation Parameter without Type, an enum Member
without Name (each a KeyError), and an enum Member whose Value is not
an integer literal (a ValueError), each make get_entity_sets fail on an
otherwise well-formed document. -/
theorem c10_attribute_errors_abort_compile :
    exceptIsError (get_entity_sets_model c10DocNoNamespace) = true
    ∧ exceptIsError (get_entity_sets_model c10DocEntityNoName) = true
    ∧ exceptIsError (get_entity_sets_model c10DocPropertyNoType) = true
    ∧ exceptIsError (get_entity_sets_model c10DocNavNoName) = true
    ∧ exceptIsError (get_entity_sets_model c10DocParameterNoType) = true
    ∧ exceptIsError (get_entity_sets_model c10DocMemberNoName) = true
    ∧ exceptIsError (get_entity_sets_model c10DocMemberBadValue) = true :=
  ⟨rfl, rfl, rfl, rfl, rfl, rfl, rfl⟩

/-- Claim C8: a declared type name outside the mapped EDM primitives
resolves to the string kind and never fails: (1) the scalar-kind map
property_type_to_python is total with StringProperty as default (this
is also the resolution applied to every operation parameter type in
mkOperationClass); (2) a property whose type resolves to no enum and no
primitive is attached as a StringProperty instance; (3) the shared
return-type lookup get_entity_or_prop_from_type falls back to the
string kind for a name matching neither the type table nor a mapped
primitive. -/
theorem c8_unknown_scalar_defaults_to_string :
    (∀ t : String, containsKey property_types t = false →
      property_type_to_python t = .StringProperty)
    ∧ (∀ (elu : String → Option EnumTypeVal) (props : List (String × PropertyInstance))
        (p : PropertyDecl), containsKey props p.name = false → elu p.type = none →
        containsKey property_types p.type = false →
        lookupKV (attachProp elu props p) p.name
          = some (.scalar .StringProperty p.name p.is_primary_key p.is_collection))
    ∧ (∀ (all_types : List (String × TypeEntry)) (t : String),
        lookupKV all_types t = none → containsKey property_types t = false →
        get_entity_or_prop_from_type all_types (some t) = .scalar .StringProperty) := by
  refine ⟨property_type_to_python_default, ?p2, ?p3⟩
  · intro elu props p h1 h2 h3
    rw [attachProp_lookup_new_scalar elu props p h1 h2,
      property_type_to_python_default p.type h3]
  · intro all_types t h1 h2
    simp [get_entity_or_prop_from_type, h1, property_type_to_python_default t h2]

/-- Witness for C8 at the unmapped primitive name Edm.Duration. -/
theorem c8_witness :
    (containsKey property_types "Edm.Duration" = false
      ∧ property_type_to_python "Edm.Duration" = .StringProperty)
    ∧ lookupKV
        (attachProp (fun _ => none) []
          { name := "P", type := "Edm.Duration", is_primary_key := false,
            is_collection := false }) "P"
        = some (.scalar .StringProperty "P" false false)
    ∧ get_entity_or_prop_from_type [] (some "Edm.Duration") = .scalar .StringProperty :=
  ⟨⟨by decide, c8_unknown_scalar_defaults_to_string.1 "Edm.Duration" (by decide)⟩,
    c8_unknown_scalar_defaults_to_string.2.1 (fun _ => none) [] _ (by decide) rfl (by decide),
    c8_unknown_scalar_defaults_to_string.2.2 [] "Edm.Duration" rfl (by decide)⟩

/-- Claim C3: when a declaration carries a truthy base-type name that is
already resolved to an entity class in the type table, the synthesized
subtype is registered in the table and its resolved property set
extends the base: every attached property binding of the base is also
a binding of the subtype, and any name the base resolves keeps exactly
the base resolution in the subtype (the derived declaration never
overrides an inherited property). -/
theorem c3_inherited_properties_preserved
    (es : List (String × EntitySetDecl)) (st : CreateState) (d : EntityDecl)
    (bt : String) (p : EntityClass)
    (hbt : d.base_type = some bt) (hne : bt ≠ "")
    (hres : lookupKV st.all_types bt = some (.entity p)) :
    lookupKV (createEntityStep es st d).all_types d.type
      = some (.entity (createdClass es st d))
    ∧ (∀ kv ∈ p.props, kv ∈ (createdClass es st d).props)
    ∧ (∀ (n : String) (v : PropertyInstance), lookupKV p.props n = some v →
        lookupKV (createdClass es st d).props n = some v) := by
  have hinherit : inheritedProps st d = p.props := by
    unfold inheritedProps
    rw [hbt]
    simp [hne, hres, typeEntryProps]
  have hprops : (createdClass es st d).props
      = d.properties.foldl (attachProp (stepEnumLookup st d)) p.props := by
    show d.properties.foldl (attachProp (stepEnumLookup st d)) (inheritedProps st d)
      = d.properties.foldl (attachProp (stepEnumLookup st d)) p.props
    rw [hinherit]
  refine ⟨?reg, ?mem, ?look⟩
  · exact lookupKV_setKV_self _ _ _
  · intro kv hkv
    rw [hprops]
    exact attachProps_mem _ _ _ _ hkv
  · intro n v hv
    rw [hprops]
    exact attachProps_lookup_preserve _ _ _ _ _ hv

/-- Witness for C3: the subtype NS.D keeps the base binding of Id. -/
theorem c3_witness :
    (c3Derived.base_type = some "NS.B" ∧ "NS.B" ≠ ""
      ∧ lookupKV c3State.all_types "NS.B" = some (.entity c3BaseClass))
    ∧ lookupKV (createdClass [] c3State c3Derived).props "Id"
      = some (.scalar .IntegerProperty "Id" true false) :=
  ⟨⟨rfl, by decide, rfl⟩,
    (c3_inherited_properties_preserved [] c3State c3Derived "NS.B" c3BaseClass rfl
      (by decide) rfl).2.2 "Id" _ (by decide)⟩

/-- Claim C4: a declaration whose base-type name is absent from the
type table at processing time is compiled as a root type: its attribute
dictionary is exactly the fold of its own declared properties over the
empty inherited dictionary, the class is still registered in the type
table (the compile does not fail: the embedding of the pass is a total
function), and every declared property name is present on the class. -/
theorem c4_unresolved_base_falls_back_to_root
    (es : List (String × EntitySetDecl)) (st : CreateState) (d : EntityDecl) (bt : String)
    (hbt : d.base_type = some bt)
    (hres : lookupKV st.all_types bt = none) :
    (createdClass es st d).props
      = d.properties.foldl (attachProp (stepEnumLookup st d)) []
    ∧ lookupKV (createEntityStep es st d).all_types d.type
      = some (.entity (createdClass es st d))
    ∧ ∀ pd ∈ d.properties, containsKey (createdClass es st d).props pd.name = true := by
  have hinherit : inheritedProps st d = [] := by
    unfold inheritedProps
    rw [hbt]
    by_cases hbe : bt = ""
    · simp [hbe]
    · simp [hbe, hres]
  refine ⟨?props, ?reg, ?names⟩
  · show d.properties.foldl (attachProp (stepEnumLookup st d)) (inheritedProps st d)
      = d.properties.foldl (attachProp (stepEnumLookup st d)) []
    rw [hinherit]
  · exact lookupKV_setKV_self _ _ _
  · intro pd hpd
    show containsKey
      (d.properties.foldl (attachProp (stepEnumLookup st d)) (inheritedProps st d)) pd.name
      = true
    exact attachProps_contains _ _ _ _ hpd

/-- Witness for C4: NS.D with unresolved base NS.Missing still compiles
with its own property attached. -/
theorem c4_witness :
    (c4Decl.base_type = some "NS.Missing"
      ∧ lookupKV (CreateState.mk [] []).all_types "NS.Missing" = none)
    ∧ containsKey (createdClass [] (CreateState.mk [] []) c4Decl).props "Id" = true :=
  ⟨⟨rfl, rfl⟩,
    (c4_unresolved_base_falls_back_to_root [] (CreateState.mk [] []) c4Decl "NS.Missing"
      rfl rfl).2.2
      { name := "Id", type := "Edm.Int32", is_primary_key := true, is_collection := false }
      (by decide)⟩

/-- Counterexample to claim C2: compiling a document where the entity
set Orders binds the type NS.Order yields an entities mapping with no
key Orders; the class is keyed by the bare name Order instead, with the
collection name Orders only recorded on its collection attribute. -/
theorem c2_counterexample :
    ((get_entity_sets_model c2Doc).toOption.map (fun r => lookupKV r.entities "Orders"))
      = some none
    ∧ ((get_entity_sets_model c2Doc).toOption.map
        (fun r => (lookupKV r.entities "Order").map (fun c => c.odata_collection)))
      = some (some "Orders") :=
  ⟨rfl, rfl⟩

/-- Claim C2 as amended: the entities mapping is keyed by the bare
declared entity name.  Processing a declaration with a nonempty name
stores the synthesized class under the bare name, the externally
visible collection name (declared set name when one binds the type,
otherwise the bare name) is recorded on the class collection attribute,
and a step introduces no key other than the bare name. -/
theorem c2_amended_entities_keyed_by_bare_name
    (es : List (String × EntitySetDecl)) (st : CreateState) (d : EntityDecl)
    (h : d.name ≠ "") :
    lookupKV (createEntityStep es st d).entities d.name = some (createdClass es st d)
    ∧ (createdClass es st d).odata_collection = collectionNameFor es d
    ∧ ∀ k, containsKey (createEntityStep es st d).entities k = true →
        containsKey st.entities k = true ∨ k = d.name := by
  have hcol : (createdClass es st d).odata_collection ≠ "" := by
    show collectionNameFor es d ≠ ""
    unfold collectionNameFor
    cases hlk : lookupKV es d.type with
    | none => simp [h]
    | some sd =>
      by_cases hn : sd.name = ""
      · simp [hn, h]
      · simp [hn]
  have hent : (createEntityStep es st d).entities
      = setKV st.entities d.name (createdClass es st d) := by
    show (if (createdClass es st d).odata_collection = "" then st.entities
      else setKV st.entities d.name (createdClass es st d)) = _
    rw [if_neg hcol]
  refine ⟨?look, rfl, ?keys⟩
  · rw [hent]
    exact lookupKV_setKV_self _ _ _
  · intro k hk
    rw [hent] at hk
    exact (containsKey_setKV_iff _ _ _ _).mp hk

/-- Witness for C2 at the Orders entity set binding NS.Order. -/
theorem c2_witness :
    ("Order" ≠ "")
    ∧ lookupKV (createEntityStep c2SetDict (CreateState.mk [] []) c2OrderDecl).entities "Order"
      = some (createdClass c2SetDict (CreateState.mk [] []) c2OrderDecl)
    ∧ (createdClass c2SetDict (CreateState.mk [] []) c2OrderDecl).odata_collection = "Orders" :=
  ⟨by decide,
    (c2_amended_entities_keyed_by_bare_name c2SetDict (CreateState.mk [] []) c2OrderDecl
      (by decide)).1,
    by decide⟩

/-! Lemmas about the operation binder -/

/-- The shape of one operation-binder step, with the lets expanded. -/
theorem createOpStep_eq (all_types : List (String × TypeEntry))
    (entities : List (String × EntityClass)) (st : BindState) (a : OperationDecl) :
    createOpStep all_types entities st a =
      match (opBindTarget entities a).2 with
      | some tgt =>
        BindState.mk
          (st.boundOps ++
            [(tgt.odata_type, a.name, mkOperationClass all_types a (opBindTarget entities a).1)])
          st.serviceOps
      | none =>
        BindState.mk st.boundOps
          (setKV st.serviceOps a.name (mkOperationClass all_types a (opBindTarget entities a).1)) :=
  rfl

theorem createOpStep_serviceOps_mono (all_types : List (String × TypeEntry))
    (entities : List (String × EntityClass)) (st : BindState) (a : OperationDecl)
    (k : String) (h : containsKey st.serviceOps k = true) :
    containsKey (createOpStep all_types entities st a).serviceOps k = true := by
  rw [createOpStep_eq]
  cases hb : (opBindTarget entities a).2 with
  | some tgt => simpa using h
  | none =>
    show containsKey (setKV st.serviceOps a.name
      (mkOperationClass all_types a (opBindTarget entities a).1)) k = true
    exact containsKey_setKV_mono _ _ _ _ h

theorem createOps_serviceOps_mono (all_types : List (String × TypeEntry))
    (entities : List (String × EntityClass)) (l : List OperationDecl)
    (st : BindState) (k : String) (h : containsKey st.serviceOps k = true) :
    containsKey (l.foldl (createOpStep all_types entities) st).serviceOps k = true := by
  induction l generalizing st with
  | nil => simpa using h
  | cons a rest ih =>
    exact ih _ (createOpStep_serviceOps_mono all_types entities st a k h)

/-- Claim C5: a bound operation whose collection-stripped binding type
name matches no compiled entity is not discarded: the step registers
it, with the class built exactly as for the resolved-binding case, in
the global service dictionary keyed by its short declared name, leaves
the bound attachments unchanged, and the registration survives the
processing of any further actions or functions (the action and
function passes run the identical step on their respective
dictionaries). -/
theorem c5_unresolvable_binding_registered_unbound
    (all_types : List (String × TypeEntry)) (entities : List (String × EntityClass))
    (st : BindState) (a : OperationDecl) (et0 : String)
    (h1 : a.is_bound_to = some et0) (h2 : et0 ≠ "")
    (h3 : ∀ kv ∈ entities, ¬ kv.2.schema.type = (type_is_collection et0).2) :
    lookupKV (createOpStep all_types entities st a).serviceOps a.name
      = some (mkOperationClass all_types a (type_is_collection et0).1)
    ∧ (createOpStep all_types entities st a).boundOps = st.boundOps
    ∧ (∀ rest : List OperationDecl,
        containsKey (create_actions all_types entities rest
          (createOpStep all_types entities st a)).serviceOps a.name = true)
    ∧ (∀ rest : List OperationDecl,
        containsKey (create_functions all_types entities rest
          (createOpStep all_types entities st a)).serviceOps a.name = true) := by
  have hfilt : entities.filter
      (fun kv => kv.2.schema.type = (type_is_collection et0).2) = [] := by
    rw [List.filter_eq_nil_iff]
    intro kv hkv
    simpa using h3 kv hkv
  have hbind : opBindTarget entities a = ((type_is_collection et0).1, none) := by
    unfold opBindTarget
    rw [h1]
    simp [h2, hfilt]
  have hstep : createOpStep all_types entities st a
      = BindState.mk st.boundOps
          (setKV st.serviceOps a.name
            (mkOperationClass all_types a (type_is_collection et0).1)) := by
    rw [createOpStep_eq, hbind]
  refine ⟨?look, ?bound, ?persistA, ?persistF⟩
  · rw [hstep]
    exact lookupKV_setKV_self _ _ _
  · rw [hstep]
  · intro rest
    apply createOps_serviceOps_mono
    rw [hstep]
    show (lookupKV (setKV st.serviceOps a.name _) a.name).isSome = true
    rw [lookupKV_setKV_self]
    rfl
  · intro rest
    apply createOps_serviceOps_mono
    rw [hstep]
    show (lookupKV (setKV st.serviceOps a.name _) a.name).isSome = true
    rw [lookupKV_setKV_self]
    rfl

/-- Witness for C5 at the action c5Action bound to NS.Missing. -/
theorem c5_witness :
    (c5Action.is_bound_to = some "NS.Missing" ∧ "NS.Missing" ≠ ""
      ∧ ∀ kv ∈ ([] : List (String × EntityClass)),
          ¬ kv.2.schema.type = (type_is_collection "NS.Missing").2)
    ∧ lookupKV (createOpStep [] [] (BindState.mk [] []) c5Action).serviceOps "Act"
      = some (mkOperationClass [] c5Action (type_is_collection "NS.Missing").1) :=
  ⟨⟨rfl, by decide, by simp⟩,
    (c5_unresolvable_binding_registered_unbound [] [] (BindState.mk [] []) c5Action
      "NS.Missing" rfl (by decide) (by simp)).1⟩

/-! Lemmas about the relationship resolver -/

theorem navAttachStep_not_contains (entities : List (String × EntityClass))
    (acc : List (String × NavInstance)) (nd : NavPropertyDecl) (n : String)
    (h0 : containsKey acc n = false)
    (h : nd.name = n →
      ∀ kv ∈ entities, ¬ kv.2.schema.type = (type_is_collection nd.type).2) :
    containsKey (navAttachStep entities acc nd) n = false := by
  by_cases hn : nd.name = n
  · have hfilt : entities.filter
        (fun kv => kv.2.schema.type = (type_is_collection nd.type).2) = [] := by
      rw [List.filter_eq_nil_iff]
      intro kv hkv
      simpa using h hn kv hkv
    simp [navAttachStep, hfilt, h0]
  · show containsKey (match (entities.filter
        (fun kv => kv.2.schema.type = (type_is_collection nd.type).2)).getLast? with
      | some kv =>
        setKV acc nd.name
          { name := nd.name, target_type := kv.2.odata_type,
            collection := (type_is_collection nd.type).1, foreign_key := nd.foreign_key }
      | none => acc) n = false
    cases hl : (entities.filter
        (fun kv => kv.2.schema.type = (type_is_collection nd.type).2)).getLast? with
    | none => exact h0
    | some kv =>
      rw [containsKey_setKV_ne _ _ _ _ hn]
      exact h0

theorem navFold_not_contains (entities : List (String × EntityClass))
    (l : List NavPropertyDecl) (acc : List (String × NavInstance)) (n : String)
    (h0 : containsKey acc n = false)
    (h : ∀ nd ∈ l, nd.name = n →
      ∀ kv ∈ entities, ¬ kv.2.schema.type = (type_is_collection nd.type).2) :
    containsKey (l.foldl (navAttachStep entities) acc) n = false := by
  induction l generalizing acc with
  | nil => simpa using h0
  | cons nd rest ih =>
    exact ih _
      (navAttachStep_not_contains entities acc nd n h0 (h nd (List.mem_cons_self _ _)))
      (fun q hq => h q (List.mem_cons_of_mem _ hq))

/-- Counterexample to claim C6: in the compile of c6Doc the entity A
declares a navigation property Friend whose stripped target NS.Missing
matches no compiled entity type, yet the compiled A does end up with a
navigation property named Friend, attached for the sibling declaration
of the same name whose target NS.B resolves. -/
theorem c6_counterexample :
    ((get_entity_sets_model c6Doc).toOption.map (fun r =>
      (lookupKV r.entities "A").map (fun a =>
        a.schema.navigation_properties.map
          (fun nd => (nd.name, (type_is_collection nd.type).2)))))
      = some (some [("Friend", "NS.B"), ("Friend", "NS.Missing")])
    ∧ ((get_entity_sets_model c6Doc).toOption.map (fun r =>
        r.entities.all (fun kv => !(kv.2.schema.type == "NS.Missing"))))
      = some true
    ∧ ((get_entity_sets_model c6Doc).toOption.map (fun r =>
        (lookupKV r.nav_attached "A").map (fun navs => containsKey navs "Friend")))
      = some (some true) :=
  ⟨rfl, rfl, rfl⟩

/-- Claim C6 as amended: a declared navigation property whose stripped
target matches no compiled entity attaches nothing, never a
placeholder; consequently an entity ends up with no navigation property
of a name when every declaration of that name on the entity has an
unresolvable target (the carve-out the counterexample forces: a
same-named sibling declaration with a resolvable target still attaches
an edge under that name). -/
theorem c6_amended_unresolvable_navs_dropped
    (entities : List (String × EntityClass)) (e : EntityClass) (n : String)
    (h : ∀ nd ∈ e.schema.navigation_properties, nd.name = n →
      ∀ kv ∈ entities, ¬ kv.2.schema.type = (type_is_collection nd.type).2) :
    containsKey (navPropsAttached entities e) n = false := by
  unfold navPropsAttached
  exact navFold_not_contains entities _ [] n rfl h

/-- Witness for C6 at the entity c6Entity whose only navigation
declaration targets the unresolvable NS.Missing. -/
theorem c6_witness :
    (∀ nd ∈ c6Entity.schema.navigation_properties, nd.name = "Friend" →
      ∀ kv ∈ ([] : List (String × EntityClass)),
        ¬ kv.2.schema.type = (type_is_collection nd.type).2)
    ∧ containsKey (navPropsAttached [] c6Entity) "Friend" = false :=
  ⟨by simp, c6_amended_unresolvable_navs_dropped [] c6Entity "Friend" (by simp)⟩

/-! Lemmas about the enum pre-pass -/

theorem registerEnums_eq_flatten (schemas : List SchemaRec)
    (A : List (String × TypeEntry)) :
    registerEnums schemas A
      = ((schemas.map (fun s => s.enum_types)).flatten).foldl
          (fun t e => setKV t e.fully_qualified_name (.enum (resolvedEnum e))) A :=
  foldl_nested_eq_flatten _ _ _ _

theorem enum_foldl_preserve (l : List EnumDecl) (B : List (String × TypeEntry))
    (fqn : String) (v : TypeEntry)
    (hl : ∀ x ∈ l, x.fully_qualified_name ≠ fqn)
    (hB : lookupKV B fqn = some v) :
    lookupKV (l.foldl
      (fun t e => setKV t e.fully_qualified_name (.enum (resolvedEnum e))) B) fqn
      = some v := by
  induction l generalizing B with
  | nil => simpa using hB
  | cons x rest ih =>
    refine ih _ (fun y hy => hl y (List.mem_cons_of_mem _ hy)) ?_
    rw [lookupKV_setKV_ne _ _ _ _ (hl x (List.mem_cons_self _ _))]
    exact hB

theorem registerEnums_resolves_last (schemas : List SchemaRec)
    (A : List (String × TypeEntry)) (ed : EnumDecl) (e1 e2 : List EnumDecl)
    (hsplit : (schemas.map (fun s => s.enum_types)).flatten = e1 ++ ed :: e2)
    (hlast : ∀ x ∈ e2, x.fully_qualified_name ≠ ed.fully_qualified_name) :
    enumAt (registerEnums schemas A) ed.fully_qualified_name
      = some (resolvedEnum ed) := by
  have hl : lookupKV (registerEnums schemas A) ed.fully_qualified_name
      = some (.enum (resolvedEnum ed)) := by
    rw [registerEnums_eq_flatten, hsplit, List.foldl_append, List.foldl_cons]
    exact enum_foldl_preserve e2 _ _ _ hlast (lookupKV_setKV_self _ _ _)
  unfold enumAt
  rw [hl]

/-- Counterexample to claim C7: in the compile of c7Doc, the property
StatusCode of NS.D is declared with the type name NS.Status, which is
the fully-qualified name of an enum declared in the document and
resolved in the type table, yet the compiled property of D is a plain
StringProperty scalar: the name was already inherited from the base
NS.B (first-writer-wins), so the enum-typed declaration is skipped. -/
theorem c7_counterexample :
    ((get_entity_sets_model c7Doc).toOption.map (fun r => enumAt r.all_types "NS.Status"))
      = some (some { name := "Status", names := [("Active", 0), ("Closed", 1)] })
    ∧ ((get_entity_sets_model c7Doc).toOption.map (fun r =>
        (lookupKV r.entities "D").map (fun c =>
          (c.schema.properties.map (fun pd => (pd.name, pd.type)),
            lookupKV c.props "StatusCode"))))
      = some (some ([("StatusCode", "NS.Status")],
          some (.scalar .StringProperty "StatusCode" false false))) :=
  ⟨rfl, rfl⟩

/-- Claim C7 as amended: a property whose declared (alias-normalized,
collection-stripped) type name resolves to an enum in the table is
compiled as an enum-typed property bound to that enum, provided the
property name is not already present on the class (not inherited from
the base and not declared earlier in the same entity, the carve-out the
counterexample forces); and the relative order of enum and entity
declarations never matters, because the enum pre-pass resolves every
enum type of every schema into the table before any entity type is
processed: the last declaration with a given fully-qualified enum name,
wherever it sits, is resolved in the table the entity pass starts
from. -/
theorem c7_amended_enum_property_resolution
    (es : List (String × EntitySetDecl)) (st : CreateState) (d : EntityDecl)
    (p : PropertyDecl) (en : EnumTypeVal) (l1 l2 : List PropertyDecl)
    (hsplit : d.properties = l1 ++ p :: l2)
    (hfirst : ∀ q ∈ l1, q.name ≠ p.name)
    (hnotinh : containsKey (inheritedProps st d) p.name = false)
    (henum : stepEnumLookup st d p.type = some en) :
    lookupKV (createdClass es st d).props p.name = some (.enumProp p.name en)
    ∧ (∀ (schemas : List SchemaRec) (A : List (String × TypeEntry)) (ed : EnumDecl)
        (e1 e2 : List EnumDecl),
        (schemas.map (fun s => s.enum_types)).flatten = e1 ++ ed :: e2 →
        (∀ x ∈ e2, x.fully_qualified_name ≠ ed.fully_qualified_name) →
        enumAt (registerEnums schemas A) ed.fully_qualified_name
          = some (resolvedEnum ed)) := by
  constructor
  · show lookupKV
      (d.properties.foldl (attachProp (stepEnumLookup st d)) (inheritedProps st d)) p.name
      = some (.enumProp p.name en)
    rw [hsplit, List.foldl_append, List.foldl_cons]
    exact attachProps_lookup_preserve _ l2 _ _ _
      (attachProp_lookup_new_enum _ _ p en
        (containsKey_attachProps_false _ l1 _ _ hnotinh hfirst) henum)
  · exact fun schemas A ed e1 e2 h1 h2 =>
      registerEnums_resolves_last schemas A ed e1 e2 h1 h2

/-- Witness for C7: the property StatusCode of the root entity NS.Order
resolves to the enum NS.Status, and the pre-pass resolves the declared
enum of a one-schema document. -/
theorem c7_witness :
    (c7OrderDecl.properties
        = [] ++ { name := "StatusCode", type := "NS.Status", is_primary_key := false,
                  is_collection := false : PropertyDecl } :: []
      ∧ containsKey (inheritedProps c7State c7OrderDecl) "StatusCode" = false
      ∧ stepEnumLookup c7State c7OrderDecl "NS.Status" = some c7Status)
    ∧ lookupKV (createdClass [] c7State c7OrderDecl).props "StatusCode"
      = some (.enumProp "StatusCode" c7Status)
    ∧ enumAt (registerEnums [SchemaRec.mk "NS" [] [c7StatusDecl]] [])
        "NS.Status" = some (resolvedEnum c7StatusDecl) :=
  ⟨⟨rfl, by decide, rfl⟩,
    (c7_amended_enum_property_resolution [] c7State c7OrderDecl _ c7Status [] [] rfl
      (by simp) (by decide) rfl).1,
    (c7_amended_enum_property_resolution [] c7State c7OrderDecl _ c7Status [] [] rfl
      (by simp) (by decide) rfl).2
      [SchemaRec.mk "NS" [] [c7StatusDecl]] [] c7StatusDecl [] [] rfl (by simp)⟩

/-! Lemmas about the operation parameter loop -/

theorem getAttr_ok_iff (e : Elem) (k v : String) :
    getAttr e k = .ok v ↔ getAttrOpt e k = some v := by
  unfold getAttr getAttrOpt
  cases lookupKV e.attrs k <;> simp

theorem option_some_beq (a b : String) : (some a == some b) = (a == b) := rfl

theorem parse_params_true_spec (pes : List Elem)
    (acc res : Option String × List (String × String))
    (h : parse_params true pes acc = .ok res) :
    res.1 = pes.foldl (fun a pe =>
        if getAttrOpt pe "Name" == some "bindingParameter" then getAttrOpt pe "Type" else a)
      acc.1
    ∧ res.2 = acc.2 ++ paramPairs (pes.filter
        (fun pe => !(getAttrOpt pe "Name" == some "bindingParameter"))) := by
  induction pes generalizing acc with
  | nil =>
    obtain rfl : acc = res := by simpa [parse_params] using h
    simp [paramPairs]
  | cons pe rest ih =>
    rw [parse_params] at h
    cases hn : getAttr pe "Name" with
    | error msg =>
      rw [hn] at h
      replace h : (Except.error msg
          : Except String (Option String × List (String × String))) = .ok res := h
      exact Except.noConfusion h
    | ok pname =>
      rw [hn] at h
      have hno : getAttrOpt pe "Name" = some pname := (getAttr_ok_iff pe "Name" pname).mp hn
      by_cases hbp : pname = "bindingParameter"
      · subst hbp
        replace h : (match getAttr pe "Type" with
            | .error msg => (.error msg
                : Except String (Option String × List (String × String)))
            | .ok t => parse_params true rest (some t, acc.2)) = .ok res := by
          simpa using h
        cases ht : getAttr pe "Type" with
        | error msg =>
          rw [ht] at h
          replace h : (Except.error msg
              : Except String (Option String × List (String × String))) = .ok res := h
          exact Except.noConfusion h
        | ok t =>
          rw [ht] at h
          replace h : parse_params true rest (some t, acc.2) = .ok res := h
          obtain ⟨ih1, ih2⟩ := ih _ h
          have hto : getAttrOpt pe "Type" = some t := (getAttr_ok_iff pe "Type" t).mp ht
          constructor
          · simp only [List.foldl_cons, hno, option_some_beq, beq_self_eq_true, if_true, hto]
            exact ih1
          · have hpred : (!(getAttrOpt pe "Name" == some "bindingParameter")) = false := by
              rw [hno, option_some_beq]
              simp
            rw [List.filter_cons, hpred]
            simpa using ih2
      · have hbf : (pname == "bindingParameter") = false := by
          simp [hbp]
        replace h : (match getAttr pe "Type" with
            | .error msg => (.error msg
                : Except String (Option String × List (String × String)))
            | .ok t => parse_params true rest (acc.1, acc.2 ++ [(pname, t)])) = .ok res := by
          simpa [hbf] using h
        cases ht : getAttr pe "Type" with
        | error msg =>
          rw [ht] at h
          replace h : (Except.error msg
              : Except String (Option String × List (String × String))) = .ok res := h
          exact Except.noConfusion h
        | ok t =>
          rw [ht] at h
          replace h : parse_params true rest (acc.1, acc.2 ++ [(pname, t)]) = .ok res := h
          obtain ⟨ih1, ih2⟩ := ih _ h
          have hto : getAttrOpt pe "Type" = some t := (getAttr_ok_iff pe "Type" t).mp ht
          have hbo : (getAttrOpt pe "Name" == some "bindingParameter") = false := by
            rw [hno, option_some_beq]
            exact hbf
          constructor
          · simp only [List.foldl_cons, hbo, if_false, Bool.false_eq_true]
            exact ih1
          · have hpred : (!(getAttrOpt pe "Name" == some "bindingParameter")) = true := by
              rw [hbo]
              rfl
            rw [List.filter_cons, hpred]
            have hpp : paramPairs (pe :: rest.filter
                (fun pe => !(getAttrOpt pe "Name" == some "bindingParameter")))
                = (pname, t) :: paramPairs (rest.filter
                    (fun pe => !(getAttrOpt pe "Name" == some "bindingParameter"))) := by
              simp [paramPairs, hno, hto]
            simp only [if_true, hpp]
            rw [ih2]
            simp

theorem parse_params_false_spec (pes : List Elem)
    (acc res : Option String × List (String × String))
    (h : parse_params false pes acc = .ok res) :
    res.1 = acc.1 ∧ res.2 = acc.2 ++ paramPairs pes := by
  induction pes generalizing acc with
  | nil =>
    obtain rfl : acc = res := by simpa [parse_params] using h
    simp [paramPairs]
  | cons pe rest ih =>
    rw [parse_params] at h
    cases hn : getAttr pe "Name" with
    | error msg =>
      rw [hn] at h
      replace h : (Except.error msg
          : Except String (Option String × List (String × String))) = .ok res := h
      exact Except.noConfusion h
    | ok pname =>
      rw [hn] at h
      have hno : getAttrOpt pe "Name" = some pname := (getAttr_ok_iff pe "Name" pname).mp hn
      replace h : (match getAttr pe "Type" with
          | .error msg => (.error msg
              : Except String (Option String × List (String × String)))
          | .ok t => parse_params false rest (acc.1, acc.2 ++ [(pname, t)])) = .ok res := by
        simpa using h
      cases ht : getAttr pe "Type" with
      | error msg =>
        rw [ht] at h
        replace h : (Except.error msg
            : Except String (Option String × List (String × String))) = .ok res := h
        exact Except.noConfusion h
      | ok t =>
        rw [ht] at h
        replace h : parse_params false rest (acc.1, acc.2 ++ [(pname, t)]) = .ok res := h
        obtain ⟨ih1, ih2⟩ := ih _ h
        have hto : getAttrOpt pe "Type" = some t := (getAttr_ok_iff pe "Type" t).mp ht
        refine ⟨ih1, ?_⟩
        have hpp : paramPairs (pe :: rest) = (pname, t) :: paramPairs rest := by
          simp [paramPairs, hno, hto]
        rw [hpp, ih2]
        simp

/-- Claim C9: on a successful parse of an Action element, the binding
machinery behaves as the source encodes it: the operation is bound
exactly when the IsBound attribute equals the string true; the
fully-qualified invocation name is namespace-prefixed exactly in the
bound case and is the bare declared name otherwise; the is_bound_to
slot holds the Type of the last parameter named bindingParameter
exactly in the bound case and stays empty otherwise; the parameter
mapping keeps every parameter in order except that, in the bound case
only, parameters named bindingParameter are consumed and excluded; and
_parse_function is the same function as _parse_action. -/
theorem c9_binding_parameter_handling (e : Elem) (s : String) (a : OperationDecl)
    (h : parse_action e s = .ok a) :
    a.is_bound = (getAttrOpt e "IsBound" == some "true")
    ∧ a.fully_qualified_name = (if a.is_bound then s ++ "." ++ a.name else a.name)
    ∧ a.is_bound_to
      = (if a.is_bound then lastBindingParamType (childTagged e "Parameter") else none)
    ∧ a.parameters = paramPairs (if a.is_bound
        then (childTagged e "Parameter").filter
          (fun pe => !(getAttrOpt pe "Name" == some "bindingParameter"))
        else childTagged e "Parameter")
    ∧ parse_function e s = parse_action e s := by
  rw [parse_action] at h
  cases hn : getAttr e "Name" with
  | error msg =>
    rw [hn] at h
    replace h : (Except.error msg : Except String OperationDecl) = .ok a := h
    exact Except.noConfusion h
  | ok name =>
    rw [hn] at h
    replace h : (match parse_params (getAttrOpt e "IsBound" == some "true")
        (childTagged e "Parameter") (none, []) with
      | .error msg => (.error msg : Except String OperationDecl)
      | .ok pr =>
        match parse_returns (childTagged e "ReturnType") (none, none) with
        | .error msg => .error msg
        | .ok rr =>
          .ok { name := name,
                fully_qualified_name :=
                  if (getAttrOpt e "IsBound" == some "true")
                  then s ++ "." ++ name else name,
                is_bound := (getAttrOpt e "IsBound" == some "true"),
                is_bound_to := pr.1, parameters := pr.2,
                return_type := rr.1, return_type_collection := rr.2 }) = .ok a := h
    cases hp : parse_params (getAttrOpt e "IsBound" == some "true")
        (childTagged e "Parameter") (none, []) with
    | error msg =>
      rw [hp] at h
      replace h : (Except.error msg : Except String OperationDecl) = .ok a := h
      exact Except.noConfusion h
    | ok pr =>
      rw [hp] at h
      replace h : (match parse_returns (childTagged e "ReturnType") (none, none) with
        | .error msg => (.error msg : Except String OperationDecl)
        | .ok rr =>
          .ok { name := name,
                fully_qualified_name :=
                  if (getAttrOpt e "IsBound" == some "true")
                  then s ++ "." ++ name else name,
                is_bound := (getAttrOpt e "IsBound" == some "true"),
                is_bound_to := pr.1, parameters := pr.2,
                return_type := rr.1, return_type_collection := rr.2 }) = .ok a := h
      cases hr : parse_returns (childTagged e "ReturnType") (none, none) with
      | error msg =>
        rw [hr] at h
        replace h : (Except.error msg : Except String OperationDecl) = .ok a := h
        exact Except.noConfusion h
      | ok rr =>
        rw [hr] at h
        replace h : Except.ok
            { name := name,
              fully_qualified_name :=
                if (getAttrOpt e "IsBound" == some "true")
                then s ++ "." ++ name else name,
              is_bound := (getAttrOpt e "IsBound" == some "true"),
              is_bound_to := pr.1, parameters := pr.2,
              return_type := rr.1, return_type_collection := rr.2 } = .ok a := h
        injection h with ha
        subst ha
        refine ⟨rfl, rfl, ?ibt, ?params, rfl⟩
        · show pr.1 = if (getAttrOpt e "IsBound" == some "true")
            then lastBindingParamType (childTagged e "Parameter") else none
          cases hib : (getAttrOpt e "IsBound" == some "true") with
          | true =>
            rw [hib] at hp
            simp only [if_true]
            exact (parse_params_true_spec _ _ _ hp).1
          | false =>
            rw [hib] at hp
            simp only [Bool.false_eq_true, if_false]
            exact (parse_params_false_spec _ _ _ hp).1
        · show pr.2 = paramPairs (if (getAttrOpt e "IsBound" == some "true")
            then (childTagged e "Parameter").filter
              (fun pe => !(getAttrOpt pe "Name" == some "bindingParameter"))
            else childTagged e "Parameter")
          cases hib : (getAttrOpt e "IsBound" == some "true") with
          | true =>
            rw [hib] at hp
            simp only [if_true]
            simpa using (parse_params_true_spec _ _ _ hp).2
          | false =>
            rw [hib] at hp
            simp only [Bool.false_eq_true, if_false]
            simpa using (parse_params_false_spec _ _ _ hp).2

/-- Witness for C9 at the bound Action element c9Elem. -/
theorem c9_witness :
    (parse_action c9Elem "NS" = .ok c9Parsed)
    ∧ c9Parsed.is_bound_to
      = (if c9Parsed.is_bound then lastBindingParamType (childTagged c9Elem "Parameter")
         else none) :=
  ⟨rfl, (c9_binding_parameter_handling c9Elem "NS" c9Parsed rfl).2.2.1⟩

end OData
